import Mathlib

/-!
Verification of the thor HTTP/1.1 library core against its specification.

This file shallowly embeds the parts of the source that the claims touch:

* `thor/http/common.py` (`HttpMessageHandler`: `_split_headers`,
  `_parse_fields`, `_parse_headers`, `handle_input` and the body handlers,
  `output_start`);
* `thor/http/client/exchange.py` (`HttpClientExchange.input_start`,
  `input_body`, `input_end`, `input_error`, `_handle_connect_error`,
  `_conn_closed`);
* `thor/http/client/client.py` / `thor/http/client/initiate.py` (the
  per-origin pool counters, as a transition system);
* `thor/http/uri.py` (`parse_uri`, with a model of
  `urllib.parse.urlsplit` restricted to ASCII input);
* `thor/events.py` (`EventEmitter.on` / `remove_listener`);
* `thor/loop.py` (`ScheduledEvent.delete` / `LoopBase.schedule_del`).

Byte strings are `List Nat` (one entry per byte).  Python's recursion
(`handle_input` re-entering itself on pipelined input, which the source
caps via `RuntimeError` -> `TooManyMsgsError`) is modelled with an explicit
fuel parameter: exhausting the fuel plays the role of the interpreter's
recursion limit and reports `TooManyMsgsError`, exactly as the source's
`except RuntimeError` handler does.
-/

/-- Byte strings, one `Nat` per byte. -/
abbrev Bytes := List Nat

/-- Header lists: ordered `(name, value)` pairs of byte strings. -/
abbrev RawHeaders := List (Bytes × Bytes)

/-- ASCII bytes of a Lean string literal (all our literals are ASCII). -/
def B (s : String) : Bytes := s.data.map Char.toNat

/-- Python `bytes` whitespace (as used by `strip` and `split(None)`):
space, tab, LF, VT, FF, CR. -/
def pyIsSpace (b : Nat) : Bool :=
  b = 32 || b = 9 || b = 10 || b = 11 || b = 12 || b = 13

/-- Python `bytes.lstrip()`. -/
def pyLstrip (s : Bytes) : Bytes := s.dropWhile pyIsSpace

/-- Python `bytes.rstrip()`. -/
def pyRstrip (s : Bytes) : Bytes := (s.reverse.dropWhile pyIsSpace).reverse

/-- Python `bytes.strip()`. -/
def pyStrip (s : Bytes) : Bytes := pyRstrip (pyLstrip s)

/-- Lower-case one ASCII byte, as Python `bytes.lower()` does per byte. -/
def lowerByte (b : Nat) : Nat := if 65 ≤ b ∧ b ≤ 90 then b + 32 else b

/-- Python `bytes.lower()`. -/
def pyLower (s : Bytes) : Bytes := s.map lowerByte

/-- Does `pre` occur at the head of `s`? (`bytes.startswith`). -/
def leadsWith : Bytes → Bytes → Bool
  | [], _ => true
  | _ :: _, [] => false
  | a :: as, b :: bs => a = b && leadsWith as bs

/-- Python `s.split(sep, 1)` for a non-empty byte separator: the pieces
before and after the first occurrence, or `none` when `sep` is absent. -/
def splitOnceSeq (sep : Bytes) : Bytes → Option (Bytes × Bytes)
  | [] => none
  | b :: rest =>
    if leadsWith sep (b :: rest) then some ([], (b :: rest).drop sep.length)
    else
      match splitOnceSeq sep rest with
      | some (l, r) => some (b :: l, r)
      | none => none

/-- Python `s.split(bytes([c]), 1)`: split at the first occurrence of a
single byte. -/
def splitOnceByte (c : Nat) : Bytes → Option (Bytes × Bytes)
  | [] => none
  | b :: rest =>
    if b = c then some ([], rest)
    else
      match splitOnceByte c rest with
      | some (l, r) => some (b :: l, r)
      | none => none

/-- Python `s.rsplit(bytes([c]), 1)`: split at the last occurrence. -/
def rsplitOnceByte (c : Nat) (s : Bytes) : Option (Bytes × Bytes) :=
  match splitOnceByte c s.reverse with
  | some (r, l) => some (l.reverse, r.reverse)
  | none => none

/-- Python `s.split(bytes([c]))` (no maxsplit), via fuel: every split
consumes the separator byte, so `s.length + 1` fuel always suffices. -/
def splitAllByteFuel : Nat → Nat → Bytes → List Bytes
  | 0, _, s => [s]
  | fuel + 1, c, s =>
    match splitOnceByte c s with
    | some (l, r) => l :: splitAllByteFuel fuel c r
    | none => [s]

/-- Python `s.split(bytes([c]))` (no maxsplit): all the pieces. -/
def splitAllByte (c : Nat) (s : Bytes) : List Bytes :=
  splitAllByteFuel (s.length + 1) c s

/-- Index of the first occurrence of byte `c` in `s` at position `≥ pos`
(Python `bytes.find(c, pos)`), or `none`. -/
def findByteFrom (s : Bytes) (c : Nat) (pos : Nat) : Option Nat :=
  match s with
  | [] => none
  | b :: rest =>
    if pos = 0 ∧ b = c then some 0
    else (findByteFrom rest c (pos - 1)).map (· + 1)

/-- Python `bytes.splitlines()` (universal newlines for bytes:
`\r`, `\n`, `\r\n`), via fuel (the scanner consumes at least one byte per
line, so `s.length + 1` fuel always suffices). -/
def pySplitlinesFuel : Nat → Bytes → List Bytes
  | 0, _ => []
  | _, [] => []
  | fuel + 1, s =>
    let line := s.takeWhile (fun b => b ≠ 13 && b ≠ 10)
    let rest := s.drop line.length
    match rest with
    | [] => [line]
    | r :: rs =>
      if r = 13 ∧ rs.take 1 = [10] then line :: pySplitlinesFuel fuel (rs.drop 1)
      else line :: pySplitlinesFuel fuel rs

/-- Python `bytes.splitlines()`. -/
def pySplitlines (s : Bytes) : List Bytes := pySplitlinesFuel (s.length + 1) s

/-- Value of an ASCII digit byte in the given base, or `none`. -/
def digitVal (base : Nat) (b : Nat) : Option Nat :=
  let v :=
    if 48 ≤ b ∧ b ≤ 57 then some (b - 48)
    else if 97 ≤ b ∧ b ≤ 102 then some (b - 87)
    else if 65 ≤ b ∧ b ≤ 70 then some (b - 55)
    else none
  match v with
  | some d => if d < base then some d else none
  | none => none

/-- Digits-only numeral in `base`, or `none` when empty or malformed. -/
def natOfDigits (base : Nat) : Bytes → Option Nat
  | [] => none
  | ds => ds.foldl (fun acc b =>
      match acc, digitVal base b with
      | some a, some d => some (a * base + d)
      | _, _ => none) (some 0)

/-- Python `int(s, base)` for base 10 or 16: strips surrounding
whitespace, allows one sign, allows an `0x`/`0X` marker when base is 16,
then requires at least one digit.  (CPython additionally permits single
underscores between digits; no claim exercises that, so it is omitted.) -/
def pyInt? (base : Nat) (s : Bytes) : Option Int :=
  let t := pyStrip s
  let (neg, t) :=
    match t with
    | 45 :: rest => (true, rest)
    | 43 :: rest => (false, rest)
    | _ => (false, t)
  let t :=
    if base = 16 ∧ (leadsWith (B "0x") t ∨ leadsWith (B "0X") t) then t.drop 2
    else t
  match natOfDigits base t with
  | some n => some (if neg then -(n : Int) else (n : Int))
  | none => none

/-- Python slice index resolution: `s[:k]` / `s[k:]` clamp `k`, counting
from the end when negative. -/
def pyIdx (len : Nat) (k : Int) : Nat :=
  if k < 0 then (max 0 ((len : Int) + k)).toNat else min len k.toNat

/-- Python `s[:k]`. -/
def pyTakeTo (s : Bytes) (k : Int) : Bytes := s.take (pyIdx s.length k)

/-- Python `s[k:]`. -/
def pyDropFrom (s : Bytes) (k : Int) : Bytes := s.drop (pyIdx s.length k)

/-- Python `s.split(None, 1)` producing exactly two parts: the first
whitespace-delimited token and the rest (leading whitespace of the rest
consumed); `none` when there are fewer than two parts (the source's tuple
unpacking then raises `ValueError`). -/
def pySplitNone1 (s : Bytes) : Option (Bytes × Bytes) :=
  let t := s.dropWhile pyIsSpace
  let tok := t.takeWhile (fun b => !pyIsSpace b)
  let rest := (t.drop tok.length).dropWhile pyIsSpace
  if tok = [] then none
  else if rest = [] then none
  else some (tok, rest)

/-! ## Codec data model (`thor/http/common.py`) -/

/-- Input/output states of `HttpMessageHandler` (`States` in the source). -/
inductive States
  | WAITING
  | HEADERS_DONE
  | ERROR
  | QUIET
  deriving DecidableEq, Repr

/-- Framing delimiters (`Delimiters` in the source). -/
inductive Delimiters
  | CLOSE
  | COUNTED
  | CHUNKED
  | NOBODY
  deriving DecidableEq, Repr

/-- The error taxonomy of `thor/http/error.py`.  The copy of `error.py`
under `src/` lacks the `ExtraDataError`, `StartLineError`, `DnsError` and
`AccessError` classes that `common.py` and `client/exchange.py` reference;
those four kinds are modelled from the spec's error taxonomy (they carry
no recoverability flag there, so they inherit the default, `false`, just
as an `HttpError` subclass would). -/
inductive HttpErrorKind
  | ChunkError
  | DuplicateCLError
  | MalformedCLError
  | ExtraDataError
  | StartLineError
  | HttpVersionError
  | ReadTimeoutError
  | TransferCodeError
  | HeaderSpaceError
  | TopLineSpaceError
  | TooManyMsgsError
  | UrlError
  | LengthRequiredError
  | DnsError
  | ConnectError
  | AccessError
  | HostRequiredError
  deriving DecidableEq, Repr

/-- The `client_recoverable` class attribute, per `src/thor/http/error.py`
(only `UrlError` and `LengthRequiredError` set it to `True` there). -/
def clientRecoverable : HttpErrorKind → Bool
  | HttpErrorKind.UrlError => true
  | HttpErrorKind.LengthRequiredError => true
  | _ => false

/-- Observable events: the codec's subclass callbacks (`input_*`, logged
the way the test suite's `DummyHttpParser` logs them) and the client
exchange's emitted events (`response_*`, `error`). -/
inductive Ev
  | body (chunk : Bytes)
  | endOfMsg (trailers : RawHeaders)
  | err (k : HttpErrorKind)
  | start (top : Bytes) (hdrs : RawHeaders)
  | responseStart (code phrase : Bytes) (hdrs : RawHeaders)
  | responseNonfinal (code phrase : Bytes) (hdrs : RawHeaders)
  | responseBody (chunk : Bytes)
  | responseDone (trailers : RawHeaders)
  | errorEvent (k : HttpErrorKind)
  deriving DecidableEq, Repr

/-- The mutable fields of an `HttpMessageHandler` together with the
subclass state `sub` (`_input_buffer` is kept as the concatenation of the
source's list of byte strings, which is all the source ever observes). -/
structure Machine (α : Type) where
  sub : α
  careful : Bool
  defaultState : States
  inputHeaderLength : Nat
  inputTransferLength : Int
  inputBuffer : Bytes
  inputState : States
  inputDelimit : Option Delimiters
  bodyLeft : Int
  deriving DecidableEq, Repr

/-- The subclass callbacks of `HttpMessageHandler` (`input_start`,
`input_body`, `input_end`, `input_error`).  `onStart` returning `none`
models `input_start` raising `ValueError`; `onError` may change the input
state, as the client exchange's `input_error` does. -/
structure Hooks (α : Type) where
  onStart : α → States → Bytes → RawHeaders → List Bytes → List Bytes → Option Int →
    α × States × List Ev × Option (Bool × Bool)
  onBody : α → Bytes → α × List Ev
  onEnd : α → RawHeaders → α × List Ev
  onError : α → States → HttpErrorKind → α × States × List Ev

/-! ## Header block splitting (`HttpMessageHandler._split_headers`) -/

/-- The scanning loop of `_split_headers`, ported statement by statement;
`pos` strictly increases every iteration, so `s.length + 2` fuel always
suffices. -/
def splitHeadersLoop (s : Bytes) : Nat → Nat → Option Bytes × Bytes
  | 0, _ => (none, s)
  | fuel + 1, pos =>
    if pos ≤ s.length then
      match findByteFrom s 10 pos with
      | none => (none, s)
      | some i =>
        let back := if 0 < i ∧ s.get? (i - 1) = some 13 then 1 else 0
        let pos1 := i + 1
        if pos1 < s.length then
          let isCR := s.get? pos1 = some 13
          let pos2 := if isCR then pos1 + 1 else pos1
          let back2 := if isCR then back + 1 else back
          if pos2 < s.length ∧ s.get? pos2 = some 10 then
            (some (s.take (pos2 - back2 - 1)), s.drop (pos2 + 1))
          else splitHeadersLoop s fuel pos2
        else splitHeadersLoop s fuel pos1
    else (none, s)

/-- `_split_headers`: find the first blank-line boundary (`\r\n\r\n` or
`\n\n`, each CR optional); return `(headers, rest)`, or `(none, input)`
when no complete header block is present. -/
def splitHeaders (s : Bytes) : Option Bytes × Bytes :=
  splitHeadersLoop s (s.length + 2) 0

/-! ## Field parsing (`HttpMessageHandler._parse_fields`) -/

/-- Accumulator for the `_parse_fields` loop. -/
structure FieldState (α : Type) where
  sub : α
  ist : States
  evs : List Ev
  hdrs : RawHeaders
  conn : List Bytes
  transfer : List Bytes
  cl : Option Int

/-- Obs-fold: append the folded line (single-space separated, lstripped)
to the last header's value. -/
def foldLastHeader (hdrs : RawHeaders) (line : Bytes) : RawHeaders :=
  match hdrs.getLast? with
  | some kv => hdrs.dropLast ++ [(kv.1, kv.2 ++ [32] ++ pyLstrip line)]
  | none => hdrs

/-- `fn[-1:] in [b" ", b"\t"]`. -/
def lastIsBlank (s : Bytes) : Bool :=
  match s.getLast? with
  | some b => b = 32 || b = 9
  | none => false

/-- The `content-length` arm of `_parse_fields` (duplicate detection, then
parse-and-assign with the `assert content_length >= 0`; on an
`AssertionError` the negative value has already been assigned).  The
returned `Bool` is the abort flag (`raise ValueError` under `careful`). -/
def parseFieldsCL {α : Type} (hk : Hooks α) (careful : Bool) (fs : FieldState α)
    (fval : Bytes) : FieldState α × Bool :=
  let afterDup : FieldState α ⊕ (FieldState α × Bool) :=
    match fs.cl with
    | none => Sum.inl fs
    | some cl0 =>
      if pyInt? 10 fval = some cl0 then Sum.inr (fs, false)
      else
        let (a, st, evs) := hk.onError fs.sub fs.ist HttpErrorKind.DuplicateCLError
        let fs2 := { fs with sub := a, ist := st, evs := fs.evs ++ evs }
        if careful then Sum.inr (fs2, true) else Sum.inl fs2
  match afterDup with
  | Sum.inr r => r
  | Sum.inl fs1 =>
    match pyInt? 10 fval with
    | some n =>
      if 0 ≤ n then ({ fs1 with cl := some n }, false)
      else
        let fs2 := { fs1 with cl := some n }
        let (a, st, evs) := hk.onError fs2.sub fs2.ist HttpErrorKind.MalformedCLError
        ({ fs2 with sub := a, ist := st, evs := fs2.evs ++ evs }, careful)
    | none =>
      let (a, st, evs) := hk.onError fs1.sub fs1.ist HttpErrorKind.MalformedCLError
      ({ fs1 with sub := a, ist := st, evs := fs1.evs ++ evs }, careful)

/-- The connection-info gathering of `_parse_fields` (the
`if gather_conn_info:` block), run after the tuple has been appended. -/
def parseFieldsGather {α : Type} (hk : Hooks α) (careful : Bool) (fs : FieldState α)
    (fn fv : Bytes) : FieldState α × Bool :=
  let fname := pyLower (pyStrip fn)
  let fval := pyStrip fv
  if fname = B "connection" then
    ({ fs with conn := fs.conn ++ (splitAllByte 44 fval).map (fun v => pyLower (pyStrip v)) },
     false)
  else if fname = B "transfer-encoding" then
    ({ fs with transfer :=
         fs.transfer ++ (splitAllByte 44 fval).map (fun v => pyLower (pyStrip v)) },
     false)
  else if fname = B "content-length" then
    parseFieldsCL hk careful fs fval
  else (fs, false)

/-- One iteration of the `_parse_fields` loop over a header line.  The
returned `Bool` is the abort flag (a `raise ValueError` under `careful`);
a line without a colon is silently ignored. -/
def parseFieldsLine {α : Type} (hk : Hooks α) (careful gather : Bool) (fs : FieldState α)
    (line : Bytes) : FieldState α × Bool :=
  if (line.take 1 = [32] ∨ line.take 1 = [9]) ∧ fs.hdrs ≠ [] then
    ({ fs with hdrs := foldLastHeader fs.hdrs line }, false)
  else
    let topSpace : FieldState α × Bool :=
      if line.take 1 = [32] ∨ line.take 1 = [9] then
        let (a, st, evs) := hk.onError fs.sub fs.ist HttpErrorKind.TopLineSpaceError
        ({ fs with sub := a, ist := st, evs := fs.evs ++ evs }, careful)
      else (fs, false)
    match topSpace with
    | (fs1, true) => (fs1, true)
    | (fs1, false) =>
      match splitOnceByte 58 line with
      | none => (fs1, false)
      | some (fn, fv) =>
        let spaceChk : FieldState α × Bool :=
          if lastIsBlank fn then
            let (a, st, evs) := hk.onError fs1.sub fs1.ist HttpErrorKind.HeaderSpaceError
            ({ fs1 with sub := a, ist := st, evs := fs1.evs ++ evs }, careful)
          else (fs1, false)
        match spaceChk with
        | (fs2, true) => (fs2, true)
        | (fs2, false) =>
          let fs3 := { fs2 with hdrs := fs2.hdrs ++ [(fn, fv)] }
          if gather then parseFieldsGather hk careful fs3 fn fv else (fs3, false)

/-- The `_parse_fields` loop over all header lines. -/
def parseFieldsGo {α : Type} (hk : Hooks α) (careful gather : Bool) (fs : FieldState α) :
    List Bytes → FieldState α × Bool
  | [] => (fs, false)
  | l :: ls =>
    match parseFieldsLine hk careful gather fs l with
    | (fs2, true) => (fs2, true)
    | (fs2, false) => parseFieldsGo hk careful gather fs2 ls

/-- `_parse_fields`: returns the updated subclass state, input state, the
events emitted via `input_error`, and — unless a `ValueError` was raised —
the `(hdr_tuples, conn_tokens, transfer_codes, content_length)` tuple. -/
def parseFields {α : Type} (hk : Hooks α) (careful gather : Bool) (a : α) (st : States)
    (lines : List Bytes) :
    α × States × List Ev × Option (RawHeaders × List Bytes × List Bytes × Option Int) :=
  let fs0 : FieldState α := ⟨a, st, [], [], [], [], none⟩
  let (fs, aborted) := parseFieldsGo hk careful gather fs0 lines
  (fs.sub, fs.ist, fs.evs,
   if aborted then none else some (fs.hdrs, fs.conn, fs.transfer, fs.cl))

/-! ## Header parsing and delimiter selection
(`HttpMessageHandler._parse_headers`) -/

/-- The `# ignore content-length if transfer-encoding is present` step. -/
def effectiveCL (transfer : List Bytes) (cl : Option Int) : Option Int :=
  if transfer ≠ [] ∧ cl.isSome then none else cl

/-- The delimiter-selection cascade at the end of `_parse_headers`.  The
second component is the new `_input_body_left` (`none` = the source leaves
the field untouched in that branch). -/
def selectDelimiter (allowsBody : Bool) (transfer : List Bytes) (cl : Option Int) :
    Delimiters × Option Int :=
  if ¬ allowsBody then (Delimiters.NOBODY, none)
  else if transfer ≠ [] then
    if transfer.getLast? = some (B "chunked") then (Delimiters.CHUNKED, some (-1))
    else (Delimiters.CLOSE, none)
  else
    match cl with
    | some n => (Delimiters.COUNTED, some n)
    | none => (Delimiters.CLOSE, none)

/-- The top-line chopping loop of `_parse_headers`: pop leading blank
lines; `none` when every line is blank (the source then returns `True`
without calling `input_start`). -/
def dropBlankTop : List Bytes → Option (Bytes × List Bytes)
  | [] => none
  | l :: ls => if pyStrip l ≠ [] then some (l, ls) else dropBlankTop ls

/-- `_parse_headers`: parse a complete header block.  Returns the
source's boolean result (`True` = no fatal problem), the updated machine
and the events emitted. -/
def parseHeaders {α : Type} (hk : Hooks α) (m : Machine α) (inbytes : Bytes) :
    Bool × Machine α × List Ev :=
  let m := { m with inputHeaderLength := inbytes.length }
  match dropBlankTop (pySplitlines inbytes) with
  | none => (true, m, [])
  | some (topLine, headerLines) =>
    match parseFields hk m.careful true m.sub m.inputState headerLines with
    | (a, st, evs, none) => (false, { m with sub := a, inputState := st }, evs)
    | (a, st, evs, some (hdrs, conn, transfer, cl)) =>
      let cl := effectiveCL transfer cl
      match hk.onStart a st topLine hdrs conn transfer cl with
      | (a2, st2, evs2, none) =>
        (false, { m with sub := a2, inputState := st2 }, evs ++ evs2)
      | (a2, _, evs2, some (allowsBody, isFinal)) =>
        let st3 := if isFinal then States.HEADERS_DONE else States.WAITING
        let (delim, bl) := selectDelimiter allowsBody transfer cl
        (true,
         { m with sub := a2, inputState := st3, inputDelimit := some delim,
                  bodyLeft := bl.getD m.bodyLeft },
         evs ++ evs2)

/-! ## Body handlers and `handle_input` -/

/-- `_handle_close`: every byte is body. -/
def handleClose {α : Type} (hk : Hooks α) (m : Machine α) (inbytes : Bytes) :
    Machine α × List Ev :=
  let m1 := { m with inputTransferLength := m.inputTransferLength + inbytes.length }
  let (a, evs) := hk.onBody m1.sub inbytes
  ({ m1 with sub := a }, evs)

/-- `_handle_chunk_new`: parse the size line of a new chunk.  Returns the
updated machine, the events, and the remainder handed back to the chunked
loop. -/
def handleChunkNew {α : Type} (hk : Hooks α) (m : Machine α) (inbytes : Bytes) :
    Machine α × List Ev × Bytes :=
  match splitOnceSeq (B "\r\n") inbytes with
  | none =>
    if 512 < inbytes.length then
      let (a, st, evs) := hk.onError m.sub m.inputState HttpErrorKind.ChunkError
      ({ m with sub := a, inputState := st }, evs, [])
    else
      ({ m with inputBuffer := m.inputBuffer ++ inbytes }, [], [])
  | some (sizeLine, rest) =>
    let sizeStr :=
      match splitOnceByte 59 sizeLine with
      | some (l, _) => l
      | none => sizeLine
    match pyInt? 16 sizeStr with
    | none =>
      let (a, st, evs) := hk.onError m.sub m.inputState HttpErrorKind.ChunkError
      ({ m with sub := a, inputState := st }, evs, [])
    | some n =>
      ({ m with bodyLeft := n,
                inputTransferLength :=
                  m.inputTransferLength + ((inbytes.length : Int) - rest.length) },
       [], rest)

/-- `_handle_chunk_body`: a continuing body chunk.  The source
distinguishes `body_left + 2 < got` (chunk complete with data beyond it),
`body_left + 2 == got` (chunk plus its CRLF, exactly), `body_left == got`
(buffer and wait) and everything else (treated as a partial chunk). -/
def handleChunkBody {α : Type} (hk : Hooks α) (m : Machine α) (inbytes : Bytes) :
    Machine α × List Ev × Bytes :=
  let got : Int := inbytes.length
  if m.bodyLeft + 2 < got then
    let thisChunk := m.bodyLeft
    let (a, evs) := hk.onBody m.sub (pyTakeTo inbytes thisChunk)
    ({ m with sub := a,
              inputTransferLength := m.inputTransferLength + thisChunk + 2,
              bodyLeft := -1 },
     evs, pyDropFrom inbytes (thisChunk + 2))
  else if m.bodyLeft + 2 = got then
    let (a, evs) := hk.onBody m.sub (pyTakeTo inbytes (-2))
    ({ m with sub := a,
              inputTransferLength := m.inputTransferLength + m.bodyLeft + 2,
              bodyLeft := -1 },
     evs, [])
  else if m.bodyLeft = got then
    ({ m with inputBuffer := m.inputBuffer ++ inbytes }, [], [])
  else
    let (a, evs) := hk.onBody m.sub inbytes
    ({ m with sub := a,
              inputTransferLength := m.inputTransferLength + got,
              bodyLeft := m.bodyLeft - got },
     evs, [])

/-- Fuel exhaustion: the Python recursion limit fires (`RuntimeError`),
reported as `input_error(TooManyMsgsError())`. -/
def fuelOut {α : Type} (hk : Hooks α) (m : Machine α) (evs : List Ev) :
    Machine α × List Ev :=
  let (a, st, evs2) := hk.onError m.sub m.inputState HttpErrorKind.TooManyMsgsError
  ({ m with sub := a, inputState := st }, evs ++ evs2)

mutual

/-- `handle_input`: concatenate any buffered partial input, then dispatch
on the input state (WAITING / QUIET / HEADERS_DONE / ERROR).  Under
HEADERS_DONE with no delimiter the source raises `Exception`; that case
is unreachable (HEADERS_DONE is only entered after `_parse_headers` set a
delimiter) and is modelled as a no-op. -/
def handleInput {α : Type} (hk : Hooks α) (fuel : Nat) (m0 : Machine α) (inbytes0 : Bytes) :
    Machine α × List Ev :=
  let inbytes := m0.inputBuffer ++ inbytes0
  let m := { m0 with inputBuffer := ([] : Bytes) }
  match m.inputState with
  | States.WAITING =>
    match splitHeaders inbytes with
    | (some headers, rest) =>
      match parseHeaders hk m headers with
      | (true, m1, evs) =>
        match fuel with
        | 0 => fuelOut hk m1 evs
        | fuel + 1 =>
          let r := handleInput hk fuel m1 rest
          (r.1, evs ++ r.2)
      | (false, m1, evs) => (m1, evs)
    | (none, _) => ({ m with inputBuffer := inbytes }, [])
  | States.QUIET =>
    if pyStrip inbytes ≠ [] then
      let (a, st, evs) := hk.onError m.sub m.inputState HttpErrorKind.ExtraDataError
      ({ m with sub := a, inputState := st }, evs)
    else (m, [])
  | States.HEADERS_DONE =>
    match m.inputDelimit with
    | some Delimiters.NOBODY =>
      match fuel with
      | 0 => fuelOut hk m []
      | fuel + 1 => handleNobody hk fuel m inbytes
    | some Delimiters.CLOSE => handleClose hk m inbytes
    | some Delimiters.COUNTED =>
      match fuel with
      | 0 => fuelOut hk m []
      | fuel + 1 => handleCounted hk fuel m inbytes
    | some Delimiters.CHUNKED =>
      match fuel with
      | 0 => fuelOut hk m []
      | fuel + 1 => handleChunked hk fuel m inbytes
    | none => (m, [])
  | States.ERROR => (m, [])

/-- `_handle_nobody`: no body; `input_end([])` and feed the remainder
back through `handle_input`. -/
def handleNobody {α : Type} (hk : Hooks α) (fuel : Nat) (m : Machine α) (inbytes : Bytes) :
    Machine α × List Ev :=
  let m1 := { m with inputState := m.defaultState }
  let (a, evs) := hk.onEnd m1.sub []
  let m2 := { m1 with sub := a }
  match fuel with
  | 0 => fuelOut hk m2 evs
  | fuel + 1 =>
    let r := handleInput hk fuel m2 inbytes
    (r.1, evs ++ r.2)

/-- `_handle_counted`: body delimited by Content-Length. -/
def handleCounted {α : Type} (hk : Hooks α) (fuel : Nat) (m : Machine α) (inbytes : Bytes) :
    Machine α × List Ev :=
  if m.bodyLeft ≤ (inbytes.length : Int) then
    let m1 := { m with inputTransferLength := m.inputTransferLength + m.bodyLeft }
    let (a, evs) := hk.onBody m1.sub (pyTakeTo inbytes m.bodyLeft)
    let (a2, evs2) := hk.onEnd a []
    let m2 := { m1 with sub := a2, inputState := m.defaultState }
    let rest := pyDropFrom inbytes m.bodyLeft
    if rest ≠ [] then
      match fuel with
      | 0 => fuelOut hk m2 (evs ++ evs2)
      | fuel + 1 =>
        let r := handleInput hk fuel m2 rest
        (r.1, evs ++ evs2 ++ r.2)
    else (m2, evs ++ evs2)
  else
    let (a, evs) := hk.onBody m.sub inbytes
    ({ m with sub := a,
              inputTransferLength := m.inputTransferLength + inbytes.length,
              bodyLeft := m.bodyLeft - inbytes.length },
     evs)

/-- `_handle_chunked`: the `while inbytes:` loop dispatching on
`_input_body_left` (negative = need a chunk size, positive = mid-chunk,
zero = body done). -/
def handleChunked {α : Type} (hk : Hooks α) (fuel : Nat) (m : Machine α) (inbytes : Bytes) :
    Machine α × List Ev :=
  if inbytes = [] then (m, [])
  else if m.bodyLeft < 0 then
    let r := handleChunkNew hk m inbytes
    match fuel with
    | 0 => fuelOut hk r.1 r.2.1
    | fuel + 1 =>
      let r2 := handleChunked hk fuel r.1 r.2.2
      (r2.1, r.2.1 ++ r2.2)
  else if 0 < m.bodyLeft then
    let r := handleChunkBody hk m inbytes
    match fuel with
    | 0 => fuelOut hk r.1 r.2.1
    | fuel + 1 =>
      let r2 := handleChunked hk fuel r.1 r.2.2
      (r2.1, r.2.1 ++ r2.2)
  else
    match fuel with
    | 0 => fuelOut hk m []
    | fuel + 1 => handleChunkDone hk fuel m inbytes

/-- `_handle_chunk_done`: the zero chunk has been seen; finish with no
trailers on an immediate CRLF, otherwise parse a trailer block (or buffer
until it is complete). -/
def handleChunkDone {α : Type} (hk : Hooks α) (fuel : Nat) (m : Machine α) (inbytes : Bytes) :
    Machine α × List Ev :=
  if inbytes.take 2 = [13, 10] then
    let m1 := { m with inputState := m.defaultState }
    let (a, evs) := hk.onEnd m1.sub []
    let m2 := { m1 with sub := a }
    if 2 < inbytes.length then
      match fuel with
      | 0 => fuelOut hk m2 evs
      | fuel + 1 =>
        let r := handleInput hk fuel m2 (inbytes.drop 2)
        (r.1, evs ++ r.2)
    else (m2, evs)
  else
    match splitHeaders inbytes with
    | (some tblock, rest) =>
      let m1 := { m with inputState := m.defaultState }
      match parseFields hk m1.careful false m1.sub m1.inputState (pySplitlines tblock) with
      | (a, _, evs, none) => ({ m1 with sub := a, inputState := States.ERROR }, evs)
      | (a, st, evs, some (trailers, _, _, _)) =>
        let (a2, evs2) := hk.onEnd a trailers
        let m2 := { m1 with sub := a2, inputState := st }
        match fuel with
        | 0 => fuelOut hk m2 (evs ++ evs2)
        | fuel + 1 =>
          let r := handleInput hk fuel m2 rest
          (r.1, evs ++ evs2 ++ r.2)
    | (none, _) => ({ m with inputBuffer := m.inputBuffer ++ inbytes }, [])

end

/-! ## Output framing (`HttpMessageHandler.output_start`) -/

/-- `output_start`: `top_line CRLF`, then `name.strip(): value CRLF` per
header (the format string is `b"%s: %s" % (k.strip(), v)`), then a blank
line. -/
def outputStart (topLine : Bytes) (hdrs : RawHeaders) : Bytes :=
  List.intercalate (B "\r\n")
    ([topLine] ++ hdrs.map (fun kv => pyStrip kv.1 ++ B ": " ++ kv.2) ++ [[], []])

/-! ## Hook instantiations -/

/-- Logging hooks mirroring the test suite's `DummyHttpParser`:
`input_start` records the head and answers `(True, True)`, the other
callbacks only record. -/
def testHooks : Hooks Unit where
  onStart := fun a st top hdrs _ _ _ => (a, st, [Ev.start top hdrs], some (true, true))
  onBody := fun a c => (a, [Ev.body c])
  onEnd := fun a t => (a, [Ev.endOfMsg t])
  onError := fun a st k => (a, st, [Ev.err k])

/-- The client exchange state that its codec callbacks read or write
(`HttpClientExchange`): the `careful` flag, the request method, the
connection-reusable flag and the parsed response version. -/
structure ClientSub where
  careful : Bool
  method : Bytes
  connReusable : Bool
  resVersion : Option Bytes
  deriving DecidableEq, Repr

/-- `no_body_status` from `common.py`. -/
def noBodyStatus : List Bytes := [B "204", B "304"]

/-- `idempotent_methods` from `common.py`. -/
def idempotentMethods : List Bytes :=
  [B "GET", B "HEAD", B "PUT", B "DELETE", B "OPTIONS", B "TRACE"]

/-- `HttpClientExchange.input_error` (with the codec's implicit
`close=True`): a client-recoverable error under `careful=False` only
clears the reusable flag; otherwise the input state becomes ERROR.  In
both cases `error` is emitted.  (The read-timeout bookkeeping and
`dead_conn` transport call have no codec-visible effect and are
omitted.) -/
def clientInputError (a : ClientSub) (st : States) (k : HttpErrorKind) :
    ClientSub × States × List Ev :=
  if clientRecoverable k ∧ ¬ a.careful then
    ({ a with connReusable := false }, st, [Ev.errorEvent k])
  else
    (a, States.ERROR, [Ev.errorEvent k])

/-- `HttpClientExchange.input_start`: parse the status line, learn
connection reusability, and emit `response_start` (final) or
`response_nonfinal` (1xx).  Returns `none` in place of the source's
`raise ValueError` after `StartLineError` / `HttpVersionError`. -/
def clientInputStart (a : ClientSub) (st : States) (topLine : Bytes) (hdrs : RawHeaders)
    (connTokens : List Bytes) (_transferCodes : List Bytes) (_cl : Option Int) :
    ClientSub × States × List Ev × Option (Bool × Bool) :=
  match pySplitNone1 topLine with
  | none =>
    let (a1, st1, evs) := clientInputError a st HttpErrorKind.StartLineError
    (a1, st1, evs, none)
  | some (protoVersion, statusTxt) =>
    match rsplitOnceByte 47 protoVersion with
    | none =>
      let (a1, st1, evs) := clientInputError a st HttpErrorKind.StartLineError
      (a1, st1, evs, none)
    | some (proto, resVersion) =>
      let a := { a with resVersion := some resVersion }
      if proto ≠ B "HTTP" ∨ (resVersion ≠ B "1.0" ∧ resVersion ≠ B "1.1") then
        let (a1, st1, evs) := clientInputError a st HttpErrorKind.HttpVersionError
        (a1, st1, evs, none)
      else
        let (resCode, resPhrase) :=
          match pySplitNone1 statusTxt with
          | some (c, p) => (c, p)
          | none => (pyRstrip statusTxt, ([] : Bytes))
        let a :=
          if ¬ connTokens.contains (B "close") ∧
             ((resVersion = B "1.0" ∧ connTokens.contains (B "keep-alive")) ∨
              resVersion = B "1.1") then
            { a with connReusable := true }
          else a
        let isFinal := ¬ resCode.take 1 = [49]
        let allowsBody :=
          isFinal ∧ ¬ noBodyStatus.contains resCode ∧ a.method ≠ B "HEAD"
        let evs :=
          if isFinal then [Ev.responseStart resCode resPhrase hdrs]
          else [Ev.responseNonfinal resCode resPhrase hdrs]
        (a, st, evs, some (allowsBody, isFinal))

/-- The client exchange's codec callbacks.  `input_end` releases or kills
the transport before emitting `response_done`; the transport side has no
codec-visible effect and only the event is kept. -/
def clientHooks : Hooks ClientSub where
  onStart := clientInputStart
  onBody := fun a c => (a, [Ev.responseBody c])
  onEnd := fun a t => (a, [Ev.responseDone t])
  onError := clientInputError

/-- A fresh `DummyHttpParser`-style machine in the given state
(`default_state = WAITING`, as in the test framework). -/
def testMachine (st : States) (delim : Option Delimiters) (bodyLeft : Int) : Machine Unit :=
  { sub := (), careful := true, defaultState := States.WAITING,
    inputHeaderLength := 0, inputTransferLength := 0, inputBuffer := [],
    inputState := st, inputDelimit := delim, bodyLeft := bodyLeft }

/-- A client exchange at the moment the request has been sent
(`_req_start` put the input state into WAITING; `default_state = QUIET`). -/
def clientMachine (careful : Bool) (method : Bytes) : Machine ClientSub :=
  { sub := { careful := careful, method := method, connReusable := false,
             resVersion := none },
    careful := careful, defaultState := States.QUIET,
    inputHeaderLength := 0, inputTransferLength := 0, inputBuffer := [],
    inputState := States.WAITING, inputDelimit := none, bodyLeft := 0 }

/-- Feed a list of byte slices through `handle_input` in order,
accumulating events. -/
def feedSlices {α : Type} (hk : Hooks α) (fuel : Nat) (m : Machine α) :
    List Bytes → Machine α × List Ev
  | [] => (m, [])
  | s :: rest =>
    let r := handleInput hk fuel m s
    let r2 := feedSlices hk fuel r.1 rest
    (r2.1, r.2 ++ r2.2)

/-- Concatenation of all `input_body` payloads in an event list. -/
def bodyConcat : List Ev → Bytes
  | [] => []
  | Ev.body c :: rest => c ++ bodyConcat rest
  | _ :: rest => bodyConcat rest

/-- Number of `input_end` events in an event list. -/
def countEnd (evs : List Ev) : Nat :=
  evs.countP (fun e => match e with | Ev.endOfMsg _ => true | _ => false)

/-- Number of `response_done` events. -/
def countResponseDone (evs : List Ev) : Nat :=
  evs.countP (fun e => match e with | Ev.responseDone _ => true | _ => false)

/-- Number of `error` events emitted by the client exchange. -/
def countErrorEvents (evs : List Ev) : Nat :=
  evs.countP (fun e => match e with | Ev.errorEvent _ => true | _ => false)

/-! ## Claim C2: the spec-side delimiter description -/

/-- The delimiter order as the claim words it, applied to the *raw*
parsed Content-Length (the claim separately demands that a parsed
Content-Length be treated as absent whenever Transfer-Encoding is
present; here that provision is implicit in the branch order). -/
def specDelimiterC2 (allowsBody : Bool) (transfer : List Bytes) (cl : Option Int) :
    Delimiters × Option Int :=
  if ¬ allowsBody then (Delimiters.NOBODY, none)
  else if transfer ≠ [] then
    if transfer.getLast? = some (B "chunked") then (Delimiters.CHUNKED, some (-1))
    else (Delimiters.CLOSE, none)
  else
    match cl with
    | some n => (Delimiters.COUNTED, some n)
    | none => (Delimiters.CLOSE, none)

/-! ## Claim C3: the client retry decisions
(`HttpClientExchange._handle_connect_error` / `_conn_closed`) -/

/-- Outcome of a connection-level failure: re-queue via the pool after
`retry_delay` (`loop.schedule(retry_delay, self._retry)`), or surface an
error to the caller. -/
inductive RetryAction
  | retry
  | surface (k : HttpErrorKind)
  deriving DecidableEq, Repr

/-- `_handle_connect_error`, ported branch for branch.  Note that the
request method is *not* consulted: any error type other than
`gai` / `access` / `retry` retries whenever `retries < retry_limit`. -/
def handleConnectError (_method : Bytes) (errType : String) (retries retryLimit : Nat) :
    RetryAction :=
  if errType = "gai" then RetryAction.surface HttpErrorKind.DnsError
  else if errType = "access" then RetryAction.surface HttpErrorKind.AccessError
  else if errType = "retry" then RetryAction.surface HttpErrorKind.ConnectError
  else if retries < retryLimit then RetryAction.retry
  else RetryAction.surface HttpErrorKind.ConnectError

/-- The decision cascade of `_conn_closed`, after the source has
re-processed any buffered partial input (`if self._input_buffer:
handle_input(b"")`): `none` means no retry/error outcome (the QUIET /
ERROR "nothing to see here" arm, or the CLOSE-delimited `input_end`
arm). -/
def connClosedDecision (inputState : States) (inputDelimit : Option Delimiters)
    (method : Bytes) (retries retryLimit : Nat) : Option RetryAction :=
  if inputState = States.QUIET ∨ inputState = States.ERROR then none
  else if inputDelimit = some Delimiters.CLOSE then none
  else if inputState = States.WAITING then
    if idempotentMethods.contains method then
      if retries < retryLimit then some RetryAction.retry
      else some (RetryAction.surface HttpErrorKind.ConnectError)
    else some (RetryAction.surface HttpErrorKind.ConnectError)
  else some (RetryAction.surface HttpErrorKind.ConnectError)

/-! ## Claim C5: the per-origin pool counters
(`HttpClient` / `HttpConnectionInitiate`), for one origin -/

/-- Pool bookkeeping for a single origin: `counts` is
`conn_counts[origin]` (an `int`, deleted-at-zero modelled as 0),
`inflight` the initiations started but not yet succeeded or abandoned,
`idle` / `inUse` the idle-pool and exchange-held connections, `waiting`
the length of `_req_q[origin]`. -/
structure PoolState where
  counts : Int
  inflight : Nat
  idle : Nat
  inUse : Nat
  waiting : Nat
  deriving DecidableEq, Repr

/-- One pool transition.  `attachIdle` / `attachNew` / `attachQueue` are
`attach_conn` (via `_new_conn`, whose guard reads `conn_counts`);
`connectOk` is `HttpConnectionInitiate._handle_connect`, the *only* place
the count is incremented; `connectFail` abandons an initiation
(`_handle_connect_error` surfacing an error); `releaseIdle` /
`releaseWaiter` are `release_conn`; `deadConn` / `deadConnRequeue` are
`dead_conn` (decrement, and when the count hits zero hand the next waiter
to `_new_conn`, which initiates since the count is then 0 < max). -/
inductive PoolStep (maxConn : Int) : PoolState → PoolState → Prop
  | attachIdle (s : PoolState) (h : 0 < s.idle) :
      PoolStep maxConn s { s with idle := s.idle - 1, inUse := s.inUse + 1 }
  | attachNew (s : PoolState) (h : s.idle = 0) (h2 : s.counts < maxConn) :
      PoolStep maxConn s { s with inflight := s.inflight + 1 }
  | attachQueue (s : PoolState) (h : s.idle = 0) (h2 : maxConn ≤ s.counts) :
      PoolStep maxConn s { s with waiting := s.waiting + 1 }
  | connectOk (s : PoolState) (h : 0 < s.inflight) :
      PoolStep maxConn s
        { s with inflight := s.inflight - 1, counts := s.counts + 1, inUse := s.inUse + 1 }
  | connectFail (s : PoolState) (h : 0 < s.inflight) :
      PoolStep maxConn s { s with inflight := s.inflight - 1 }
  | releaseIdle (s : PoolState) (h : 0 < s.inUse) (h2 : s.waiting = 0) :
      PoolStep maxConn s { s with inUse := s.inUse - 1, idle := s.idle + 1 }
  | releaseWaiter (s : PoolState) (h : 0 < s.inUse) (h2 : 0 < s.waiting) :
      PoolStep maxConn s { s with waiting := s.waiting - 1 }
  | deadConn (s : PoolState) (h : s.counts - 1 ≠ 0 ∨ s.waiting = 0) :
      PoolStep maxConn s { s with counts := s.counts - 1 }
  | deadConnRequeue (s : PoolState) (h : s.counts - 1 = 0) (h2 : 0 < s.waiting)
      (h3 : 0 < maxConn) :
      PoolStep maxConn s
        { s with counts := s.counts - 1, waiting := s.waiting - 1,
                 inflight := s.inflight + 1 }

/-- The empty pool. -/
def poolInit : PoolState := ⟨0, 0, 0, 0, 0⟩

/-- Pool states reachable from the empty pool. -/
def PoolReach (maxConn : Int) (s : PoolState) : Prop :=
  Relation.ReflTransGen (PoolStep maxConn) poolInit s

/-- A pool step under serialized initiations: a step may start an
initiation (increase `inflight`) only when none is in flight. -/
def SerialStep (maxConn : Int) (s t : PoolState) : Prop :=
  PoolStep maxConn s t ∧ (s.inflight < t.inflight → s.inflight = 0)

/-- Reachability when initiations never overlap. -/
def SerialReach (maxConn : Int) (s : PoolState) : Prop :=
  Relation.ReflTransGen (SerialStep maxConn) poolInit s

/-! ## Claim C6: round-trip definitions -/

/-- The colon split of a header line, as `_parse_fields` performs it
(`line.split(b":", 1)`); lines without a colon are never consulted
through this in the theorems. -/
def colonPair (l : Bytes) : Bytes × Bytes :=
  match splitOnceByte 58 l with
  | some (fn, fv) => (fn, fv)
  | none => (l, [])

/-- A header line that `_parse_fields` accepts without folding or
errors: it contains a colon, does not start with SP/HTAB, and its field
name carries no surrounding whitespace. -/
def wfHeaderLine (l : Bytes) : Prop :=
  (splitOnceByte 58 l).isSome = true ∧ l.take 1 ≠ [32] ∧ l.take 1 ≠ [9] ∧
  lastIsBlank (colonPair l).1 = false ∧ pyStrip (colonPair l).1 = (colonPair l).1

instance (l : Bytes) : Decidable (wfHeaderLine l) := by
  unfold wfHeaderLine
  infer_instance

/-- The canonical re-emission of a message head: the start line, order,
names and post-colon value bytes are preserved, but every header line
`name:value` is rewritten to `name.strip(): value` — `output_start`
inserts exactly one SP after the colon. -/
def canonicalMsg (top : Bytes) (lines : List Bytes) : Bytes :=
  List.intercalate (B "\r\n")
    ([top] ++
     lines.map (fun l => pyStrip (colonPair l).1 ++ B ": " ++ (colonPair l).2) ++
     [[], []])

/-- Parse a message head the way `handle_input` does in WAITING state:
`_split_headers`, chop the start line, `_parse_fields`. -/
def parseMsg (msg : Bytes) : Option (Bytes × RawHeaders) :=
  match splitHeaders msg with
  | (some block, _) =>
    match dropBlankTop (pySplitlines block) with
    | some (top, lines) =>
      match parseFields testHooks true true () States.WAITING lines with
      | (_, _, _, some (hdrs, _, _, _)) => some (top, hdrs)
      | _ => none
    | none => none
  | (none, _) => none

/-- Parse then re-emit via `output_start`. -/
def roundTrip (msg : Bytes) : Option Bytes :=
  (parseMsg msg).map (fun th => outputStart th.1 th.2)

/-! ## Claim C7: `parse_uri` (`thor/http/uri.py`) -/

def isAlphaByte (b : Nat) : Bool :=
  decide ((65 ≤ b ∧ b ≤ 90) ∨ (97 ≤ b ∧ b ≤ 122))

def isDigitByte (b : Nat) : Bool := decide (48 ≤ b ∧ b ≤ 57)

def isHexLetterByte (b : Nat) : Bool :=
  decide ((97 ≤ b ∧ b ≤ 102) ∨ (65 ≤ b ∧ b ≤ 70))

/-- `scheme_chars` of `urllib.parse`: letters, digits, `+`, `-`, `.`. -/
def schemeByte (b : Nat) : Bool :=
  isAlphaByte b || isDigitByte b || decide (b = 43) || decide (b = 45) || decide (b = 46)

/-- Model of `urllib.parse.urlsplit` on byte input, for ASCII bytes:
non-ASCII input raises `UnicodeDecodeError` in the coercion (the caller
maps it to `UrlError`); tab/CR/LF bytes are removed; a scheme is split
off when a `:` is preceded by a letter-led run of scheme characters (and
lower-cased); a netloc follows `//` up to `/`, `?` or `#`; mismatched
IPv6 brackets raise `ValueError`; then fragment and query are split off.
(CPython 3.11+ additionally validates a bracketed IPv6 host — also a
`ValueError`, which the caller likewise maps to `UrlError`; `parse_uri`
performs its own check, so that version difference is not modelled.) -/
def urlsplitBytes (url0 : Bytes) :
    Except String (Bytes × Bytes × Bytes × Bytes × Bytes) :=
  if url0.any (fun b => decide (128 ≤ b)) then
    Except.error "URL has non-ascii characters"
  else
    let url1 := url0.filter (fun b => decide (b ≠ 9 ∧ b ≠ 13 ∧ b ≠ 10))
    let schemeRest : Bytes × Bytes :=
      match findByteFrom url1 58 0 with
      | some i =>
        if 0 < i ∧ isAlphaByte (url1.headD 0) ∧ (url1.take i).all schemeByte then
          (pyLower (url1.take i), url1.drop (i + 1))
        else ([], url1)
      | none => ([], url1)
    let scheme := schemeRest.1
    let rest := schemeRest.2
    let netlocRest : Bytes × Bytes :=
      if rest.take 2 = [47, 47] then
        let nl := (rest.drop 2).takeWhile (fun b => decide (b ≠ 47 ∧ b ≠ 63 ∧ b ≠ 35))
        (nl, (rest.drop 2).drop nl.length)
      else ([], rest)
    let netloc := netlocRest.1
    if (91 ∈ netloc ∧ 93 ∉ netloc) ∨ (93 ∈ netloc ∧ 91 ∉ netloc) then
      Except.error "Invalid IPv6 URL"
    else
      let fragSplit : Bytes × Bytes :=
        match splitOnceByte 35 netlocRest.2 with
        | some (a, b) => (a, b)
        | none => (netlocRest.2, [])
      let querySplit : Bytes × Bytes :=
        match splitOnceByte 63 fragSplit.1 with
        | some (a, b) => (a, b)
        | none => (fragSplit.1, [])
      Except.ok (scheme, netloc, querySplit.1, querySplit.2, fragSplit.2)

/-- ASCII bytes to a Lean string. -/
def asciiStr (bs : Bytes) : String := String.mk (bs.map Char.ofNat)

/-- The port-resolution logic of `parse_uri`: absent or empty port falls
back to the scheme default; otherwise `int()` then the `[1, 65535]`
range check, each failure raising `UrlError`. -/
def resolvePort (dflt : Nat) (portb : Option Bytes) : Except String Nat :=
  match portb with
  | none => Except.ok dflt
  | some pb =>
    if pb = [] then Except.ok dflt
    else
      match pyInt? 10 pb with
      | none => Except.error "Non-integer port in URL"
      | some p =>
        if 1 ≤ p ∧ p ≤ 65535 then Except.ok p.toNat
        else Except.error "URL port out of range"

/-- The scheme admission of `parse_uri`: only `http` (port 80) and
`https` (port 443). -/
def schemeDefaultPort (scheme : String) : Except String Nat :=
  if scheme = "http" then Except.ok 80
  else if scheme = "https" then Except.ok 443
  else Except.error ("Unsupported URL scheme " ++ scheme)

/-- The hostname validation of `parse_uri`: ASCII-only, then either the
IPv6-literal character set or the hostname character/label rules. -/
def hostChecks (ipv6 : Bool) (hostb : Bytes) : Except String Unit :=
  if hostb.any (fun b => decide (128 ≤ b)) then
    Except.error "URL host has non-ascii characters"
  else if ipv6 then
    if hostb.all (fun b => isDigitByte b || decide (b = 58) || isHexLetterByte b) then
      Except.ok ()
    else Except.error "URL IPv6 literal has disallowed character"
  else
    if hostb.all (fun b =>
        isAlphaByte b || isDigitByte b || decide (b = 46) || decide (b = 45)) then
      let labels := splitAllByte 46 hostb
      if labels.any (fun l => decide (l = [])) then
        Except.error "URL hostname has empty label"
      else if labels.any (fun l => decide (63 < l.length)) then
        Except.error "URL hostname label greater than 63 characters"
      else Except.ok ()
    else Except.error "URL hostname has disallowed character"

/-- `urlunsplit((b"", b"", path, query, b""))` as `parse_uri` uses it for
the request target. -/
def urlunsplitPathQuery (path query : Bytes) : Bytes :=
  let url := if path.take 2 = [47, 47] then [47, 47] ++ path else path
  if query ≠ [] then url ++ [63] ++ query else url

/-- The `userinfo@` strip of `parse_uri`
(`authority.split(b"@", 1)[1]` when an `@` is present). -/
def stripUserinfo (authority0 : Bytes) : Bytes :=
  match splitOnceByte 64 authority0 with
  | some (_, after) => after
  | none => authority0

/-- The host/port extraction of `parse_uri`: IPv6 literal in brackets
(port after `]:`), else split on the last `:`, else no port.  Returns
`(hostb, portb, ipv6_literal)`. -/
def parseAuthority (authority : Bytes) : Except String (Bytes × Option Bytes × Bool) :=
  if authority.take 1 = [91] then
    match findByteFrom authority 93 0 with
    | none => Except.error "IPv6 URL missing ]"
    | some d =>
      let hostb := (authority.take d).drop 1
      let rest := authority.drop (d + 1)
      let portb := if rest.take 1 = [58] then some (rest.drop 1) else none
      Except.ok (hostb, portb, true)
  else
    match rsplitOnceByte 58 authority with
    | some (h, p) => Except.ok (h, some p, false)
    | none => Except.ok (authority, none, false)

/-- `parse_uri`: returns `(scheme, host, port, authority, req_target)`;
every `Except.error` is a raised `UrlError` in the source. -/
def parse_uri (uri : Bytes) : Except String (String × Bytes × Nat × Bytes × Bytes) :=
  match urlsplitBytes uri with
  | Except.error e => Except.error e
  | Except.ok (schemeb, authority0, path0, query, _) =>
    let scheme := asciiStr (pyLower schemeb)
    match schemeDefaultPort scheme with
    | Except.error e => Except.error e
    | Except.ok defaultPort =>
      let authority := stripUserinfo authority0
      match parseAuthority authority with
      | Except.error e => Except.error e
      | Except.ok (hostb, portb, ipv6) =>
        match resolvePort defaultPort portb with
        | Except.error e => Except.error e
        | Except.ok port =>
          match hostChecks ipv6 hostb with
          | Except.error e => Except.error e
          | Except.ok _ =>
            if 255 < hostb.length then
              Except.error "URL hostname greater than 255 characters"
            else
              let path := if path0 = [] then [47] else path0
              Except.ok (scheme, hostb, port, authority, urlunsplitPathQuery path query)

/-- Whether `parse_uri` accepts (no `UrlError`). -/
def uriOk (u : Bytes) : Bool :=
  match parse_uri u with
  | Except.ok _ => true
  | Except.error _ => false

/-! ## Claim C8: `EventEmitter` listener table (`thor/events.py`) -/

/-- `self.__events`, a `defaultdict(list)`: an ordered association list
from event names to listener lists (listeners as ids — distinct
registered callables never compare equal, and a `ContextWrapper` compares
equal to its wrapped listener). -/
abbrev ListenerTable := List (String × List Nat)

/-- `dict.get`-style lookup: no entry is created. -/
def tableGet? (t : ListenerTable) (e : String) : Option (List Nat) :=
  match t with
  | [] => none
  | (k, ls) :: rest => if k = e then some ls else tableGet? rest e

/-- Replace (or, when absent, append) the entry for `e`, as mutating
`self.__events[e]` does. -/
def tableSet (t : ListenerTable) (e : String) (ls : List Nat) : ListenerTable :=
  match t with
  | [] => [(e, ls)]
  | (k, ls0) :: rest =>
    if k = e then (k, ls) :: rest else (k, ls0) :: tableSet rest e ls

/-- `EventEmitter.on`: `self.__events[event].append(listener)` — the
defaultdict creates the entry when absent.  (The synthetic `newListener`
emit does not change the table.) -/
def onListener (t : ListenerTable) (e : String) (l : Nat) : ListenerTable :=
  match tableGet? t e with
  | some ls => tableSet t e (ls ++ [l])
  | none => tableSet t e [l]

/-- `EventEmitter.remove_listener`:
`self.__events.get(event, [listener]).remove(listener)`.  When the event
has no entry, `.get` returns the fresh default list `[listener]` and the
removal mutates only that temporary — a no-op.  When the entry exists,
`list.remove` deletes the first occurrence, or raises `ValueError`
(`Except.error`) when the listener is absent. -/
def removeListener (t : ListenerTable) (e : String) (l : Nat) :
    Except Unit ListenerTable :=
  match tableGet? t e with
  | none => Except.ok t
  | some ls =>
    if l ∈ ls then Except.ok (tableSet t e (ls.erase l))
    else Except.error ()

/-! ## Claim C9: scheduled-event cancellation (`thor/loop.py`) -/

/-- One entry of `LoopBase.__sched_events`: the deadline and the identity
of the `cb` closure (`schedule` builds a fresh closure per call, so
distinct entries never compare equal). -/
structure SchedItem where
  deadline : Int
  cbId : Nat
  deriving DecidableEq, Repr

/-- The loop's scheduled-event list. -/
structure LoopSched where
  schedEvents : List SchedItem
  deriving DecidableEq, Repr

/-- `LoopBase.schedule_del`: `self.__sched_events.remove(event)` inside
`try/except ValueError: pass` — erase the first occurrence, no-op when
absent. -/
def scheduleDel (s : LoopSched) (ev : SchedItem) : LoopSched :=
  { schedEvents := s.schedEvents.erase ev }

/-- A `ScheduledEvent` cancellation handle. -/
structure TimerHandle where
  item : SchedItem
  deleted : Bool
  deriving DecidableEq, Repr

/-- `ScheduledEvent.delete`: `if not self._deleted: schedule_del(event);
self._deleted = True`. -/
def deleteTimer (s : LoopSched) (h : TimerHandle) : LoopSched × TimerHandle :=
  if ¬ h.deleted then (scheduleDel s h.item, { h with deleted := true })
  else (s, h)

/-- The client exchange state right after the head of
`HTTP/1.1 200 OK\r\nContent-Length: 0` has been parsed — established by
the second conjunct of `c4_counterexample`. -/
def c4Mid : Machine ClientSub :=
  { sub := { careful := true, method := B "GET", connReusable := true,
             resVersion := some (B "1.1") },
    careful := true, defaultState := States.QUIET, inputHeaderLength := 34,
    inputTransferLength := 0, inputBuffer := [], inputState := States.HEADERS_DONE,
    inputDelimit := some Delimiters.COUNTED, bodyLeft := 0 }

/-! ## Theorems -/

/-- Helper: the top-line chopping loop pops every blank line and reports
an empty block. -/
theorem dropBlankTop_eq_none (ls : List Bytes) (h : ∀ l ∈ ls, pyStrip l = []) :
    dropBlankTop ls = none := by
  induction ls with
  | nil => rfl
  | cons l ls ih =>
    have hl := h l (by simp)
    simp [dropBlankTop, hl]
    exact ih (fun x hx => h x (by simp [hx]))

set_option maxRecDepth 40000 in
/-- Claim C1 (code bug): with the chunked delimiter active, a slice
carrying exactly `size + 1` bytes of a chunk (the data plus the CR of the
trailing CRLF) falls into `_handle_chunk_body`'s
`else: # got partial chunk` arm: all `size + 1` bytes — including the CR
— are emitted as body, instead of being buffered until the CRLF arrives.
On slices `[b"5\r\n12345\r", b"\n0\r\n\r\n"]` the emitted body is
`b"12345\r"`, not the chunk data `b"12345"`, refuting the claim that the
concatenated `input_body` payloads equal the message body and that CR/LF
framing bytes are never emitted as body. -/
theorem c1_chunk_offbyone_failing :
    bodyConcat (feedSlices testHooks 50
        (testMachine States.HEADERS_DONE (some Delimiters.CHUNKED) (-1))
        [B "5\r\n12345\r", B "\n0\r\n\r\n"]).2 = B "12345\r" ∧
    countEnd (feedSlices testHooks 50
        (testMachine States.HEADERS_DONE (some Delimiters.CHUNKED) (-1))
        [B "5\r\n12345\r", B "\n0\r\n\r\n"]).2 = 1 ∧
    B "12345\r" ≠ B "12345" := by decide

set_option maxRecDepth 40000 in
set_option maxHeartbeats 1600000 in
/-- Claim C4 (counterexample): one data event carrying a complete
Content-Length-delimited response plus one extra byte makes the client
exchange emit `response_done` and then `error`, with `careful=True`.  The
run through `handle_input` is staged: the blank line splits the head off
with remainder `b"X"`; `_parse_headers` on that head yields the machine
`c4Mid` (HEADERS_DONE, COUNTED, 0 left) having emitted `response_start`;
and `handle_input` re-entered on `b"X"` emits `response_body(b"")`,
`response_done` and then — via the QUIET state — `error(ExtraDataError)`:
both terminating events fire for one exchange. -/
theorem c4_counterexample :
    splitHeaders (B "HTTP/1.1 200 OK\r\nContent-Length: 0\r\n\r\nX")
      = (some (B "HTTP/1.1 200 OK\r\nContent-Length: 0"), B "X") ∧
    parseHeaders clientHooks (clientMachine true (B "GET"))
        (B "HTTP/1.1 200 OK\r\nContent-Length: 0")
      = (true, c4Mid,
         [Ev.responseStart (B "200") (B "OK") [(B "Content-Length", B " 0")]]) ∧
    countResponseDone (handleInput clientHooks 4 c4Mid (B "X")).2 = 1 ∧
    countErrorEvents (handleInput clientHooks 4 c4Mid (B "X")).2 = 1 := by
  refine ⟨by decide, by decide, by decide, by decide⟩

/-- Claim C4 (amended): what does hold is that the ERROR input state is
terminal and silent — once the exchange's input state is ERROR,
`handle_input` emits no further events (it only discards, clearing the
buffer), for every hook set, fuel and input. -/
theorem c4_error_state_silent {α : Type} (hk : Hooks α) (fuel : Nat) (m : Machine α)
    (inbytes : Bytes) (h : m.inputState = States.ERROR) :
    handleInput hk fuel m inbytes = ({ m with inputBuffer := [] }, []) := by
  cases m
  rw [handleInput.eq_def]
  simp_all

/-- Witness for `c4_error_state_silent` at a concrete machine and
input. -/
theorem c4_witness :
    (testMachine States.ERROR none 0).inputState = States.ERROR ∧
    handleInput testHooks 3 (testMachine States.ERROR none 0) (B "x")
      = ({ testMachine States.ERROR none 0 with inputBuffer := [] }, []) :=
  ⟨rfl, c4_error_state_silent testHooks 3 (testMachine States.ERROR none 0) (B "x") rfl⟩

/-- Claim C8 (counterexample): with listener 1 registered for event `e`,
removing the unregistered listener 2 raises `ValueError`
(`list.remove` on a list that does not contain it) — not a no-op. -/
theorem c8_counterexample :
    removeListener (onListener [] "e" 1) "e" 2 = Except.error () := by rfl

/-- Claim C8 (amended): `remove_listener` is a no-op exactly when the
event has no entry in the listener table (then `dict.get` hands
`list.remove` a fresh default list); when the event has an entry that
does not contain the listener, it raises `ValueError`. -/
theorem c8_remove_listener_amended :
    (∀ (t : ListenerTable) (e : String) (l : Nat),
       tableGet? t e = none → removeListener t e l = Except.ok t) ∧
    (∀ (t : ListenerTable) (e : String) (l : Nat) (ls : List Nat),
       tableGet? t e = some ls → l ∉ ls → removeListener t e l = Except.error ()) := by
  constructor
  · intro t e l h
    simp [removeListener, h]
  · intro t e l ls h hl
    simp [removeListener, h, hl]

/-- Witness for `c8_remove_listener_amended` on the empty table. -/
theorem c8_witness :
    tableGet? [] "e" = none ∧ removeListener [] "e" 7 = Except.ok [] :=
  ⟨rfl, c8_remove_listener_amended.1 [] "e" 7 rfl⟩

/-- Claim C9: `ScheduledEvent.delete` is idempotent (a second call
changes nothing), a no-op when the loop has already removed the event
(as `run()` does before invoking the callback, so deleting from inside
the timer's own callback is safe), and never removes any other scheduled
event (occurrence counts of all other items are preserved). -/
theorem c9_timer_delete :
    (∀ (s : LoopSched) (h : TimerHandle),
       deleteTimer (deleteTimer s h).1 (deleteTimer s h).2 = deleteTimer s h) ∧
    (∀ (s : LoopSched) (h : TimerHandle), h.item ∉ s.schedEvents →
       (deleteTimer s h).1 = s) ∧
    (∀ (s : LoopSched) (h : TimerHandle) (ev : SchedItem), ev ≠ h.item →
       ((deleteTimer s h).1.schedEvents.count ev = s.schedEvents.count ev)) := by
  refine ⟨?_, ?_, ?_⟩
  · intro s h
    by_cases hd : h.deleted <;> simp [deleteTimer, hd]
  · intro s h hmem
    by_cases hd : h.deleted <;>
      simp [deleteTimer, hd, scheduleDel, List.erase_of_not_mem hmem]
  · intro s h ev hne
    by_cases hd : h.deleted <;>
      simp [deleteTimer, hd, scheduleDel, List.count_erase_of_ne hne]

/-- Witness for `c9_timer_delete` at a concrete loop state and handle. -/
theorem c9_witness :
    (⟨5, 1⟩ : SchedItem) ∉ (⟨[]⟩ : LoopSched).schedEvents ∧
    (deleteTimer ⟨[]⟩ ⟨⟨5, 1⟩, false⟩).1 = (⟨[]⟩ : LoopSched) :=
  ⟨by decide, c9_timer_delete.2.1 ⟨[]⟩ ⟨⟨5, 1⟩, false⟩ (by decide)⟩

/-- Claim C3 (counterexample): POST is not idempotent, yet a plain
(`"socket"`-type) connect error with `retries=0 < retry_limit=2` makes
`_handle_connect_error` retry — the method is never consulted there, so
"a non-idempotent method never retries" is false, as is the claimed
if-and-only-if. -/
theorem c3_counterexample :
    idempotentMethods.contains (B "POST") = false ∧
    handleConnectError (B "POST") "socket" 0 2 = RetryAction.retry := by decide

/-- Claim C3 (amended): on `connect_error`, `gai` surfaces `DnsError`,
`access` surfaces `AccessError`, `retry` surfaces `ConnectError`, and any
other kind retries iff `retries < retry_limit` — regardless of method.
On a clean server close in WAITING state (delimiter not CLOSE),
`_conn_closed` retries iff the method is idempotent and
`retries < retry_limit`; a non-idempotent method then surfaces
`ConnectError`. -/
theorem c3_retry_policy_amended :
    (∀ (method : Bytes) (errType : String) (r l : Nat),
       errType ≠ "gai" → errType ≠ "access" → errType ≠ "retry" →
       (handleConnectError method errType r l = RetryAction.retry ↔ r < l)) ∧
    (handleConnectError (B "GET") "gai" 0 5 = RetryAction.surface HttpErrorKind.DnsError) ∧
    (handleConnectError (B "GET") "access" 0 5
       = RetryAction.surface HttpErrorKind.AccessError) ∧
    (handleConnectError (B "GET") "retry" 0 5
       = RetryAction.surface HttpErrorKind.ConnectError) ∧
    (∀ (d : Option Delimiters) (method : Bytes) (r l : Nat),
       d ≠ some Delimiters.CLOSE →
       (connClosedDecision States.WAITING d method r l = some RetryAction.retry ↔
         (idempotentMethods.contains method = true ∧ r < l))) ∧
    (∀ (d : Option Delimiters) (method : Bytes) (r l : Nat),
       d ≠ some Delimiters.CLOSE → idempotentMethods.contains method = false →
       connClosedDecision States.WAITING d method r l
         = some (RetryAction.surface HttpErrorKind.ConnectError)) := by
  refine ⟨?_, by decide, by decide, by decide, ?_, ?_⟩
  · intro method errType r l h1 h2 h3
    by_cases hr : r < l <;> simp [handleConnectError, h1, h2, h3, hr]
  · intro d method r l hd
    by_cases hm : idempotentMethods.contains method <;>
      by_cases hr : r < l <;> simp [connClosedDecision, hd, hm, hr]
  · intro d method r l hd hm
    have hm2 : ¬ (method ∈ idempotentMethods) := by simpa using hm
    simp [connClosedDecision, hd, hm2]

/-- Witness for `c3_retry_policy_amended` at concrete inputs. -/
theorem c3_retry_policy_witness :
    (handleConnectError (B "POST") "socket" 1 1 = RetryAction.retry ↔ 1 < 1) ∧
    (connClosedDecision States.WAITING none (B "GET") 0 2 = some RetryAction.retry ↔
      (idempotentMethods.contains (B "GET") = true ∧ 0 < 2)) :=
  ⟨c3_retry_policy_amended.1 (B "POST") "socket" 1 1 (by decide) (by decide) (by decide),
   c3_retry_policy_amended.2.2.2.2.1 none (B "GET") 0 2 (by decide)⟩

/-- Claim C2: the delimiter `_parse_headers` installs — applied to the
Content-Length that survives the Transfer-Encoding nulling — is exactly
the claimed cascade on the raw parsed values: NOBODY when
`allows_body=False`; else CHUNKED/CLOSE by the last transfer code when
any is present; else COUNTED with `content_length` remaining; else
CLOSE.  The concrete runs exercise each branch through `_parse_headers`
itself (including Content-Length being ignored when Transfer-Encoding is
present, and NOBODY taking precedence for a 204). -/
theorem c2_delimiter_selection :
    (∀ (ab : Bool) (transfer : List Bytes) (cl : Option Int),
       selectDelimiter ab transfer (effectiveCL transfer cl)
         = specDelimiterC2 ab transfer cl) ∧
    (parseHeaders clientHooks (clientMachine true (B "GET"))
        (B "HTTP/1.1 200 OK\r\nTransfer-Encoding: chunked")).2.1.inputDelimit
      = some Delimiters.CHUNKED ∧
    (parseHeaders clientHooks (clientMachine true (B "GET"))
        (B "HTTP/1.1 200 OK\r\nTransfer-Encoding: chunked, gzip")).2.1.inputDelimit
      = some Delimiters.CLOSE ∧
    ((parseHeaders clientHooks (clientMachine true (B "GET"))
        (B "HTTP/1.1 200 OK\r\nTransfer-Encoding: gzip\r\nContent-Length: 5")).2.1.inputDelimit
      = some Delimiters.CLOSE ∧
     (parseHeaders clientHooks (clientMachine true (B "GET"))
        (B "HTTP/1.1 200 OK\r\nTransfer-Encoding: gzip\r\nContent-Length: 5")).2.1.bodyLeft
      = 0) ∧
    ((parseHeaders clientHooks (clientMachine true (B "GET"))
        (B "HTTP/1.1 200 OK\r\nContent-Length: 5")).2.1.inputDelimit
      = some Delimiters.COUNTED ∧
     (parseHeaders clientHooks (clientMachine true (B "GET"))
        (B "HTTP/1.1 200 OK\r\nContent-Length: 5")).2.1.bodyLeft = 5) ∧
    (parseHeaders clientHooks (clientMachine true (B "GET"))
        (B "HTTP/1.1 204 No Content\r\nContent-Length: 5")).2.1.inputDelimit
      = some Delimiters.NOBODY := by
  refine ⟨?_, by decide, by decide, by decide, by decide, by decide⟩
  intro ab transfer cl
  cases ab <;> cases transfer <;> cases cl <;>
    simp [selectDelimiter, effectiveCL, specDelimiterC2]

/-- Claim C5 (counterexample): with `max_server_conn = 1`, two
`attach_conn` calls before either connect succeeds both pass the
`conn_counts < max_server_conn` guard (the count is raised only on
success), and after both successes `conn_counts = 2 > 1` — the invariant
does not survive overlapping initiations. -/
theorem c5_counterexample :
    ∃ s : PoolState, PoolReach 1 s ∧ 1 < s.counts := by
  refine ⟨⟨2, 0, 0, 2, 0⟩, ?_, by norm_num⟩
  have h1 : PoolStep 1 (⟨0, 0, 0, 0, 0⟩ : PoolState) ⟨0, 1, 0, 0, 0⟩ := by
    have := @PoolStep.attachNew 1 ⟨0, 0, 0, 0, 0⟩ rfl (by norm_num)
    simpa using this
  have h2 : PoolStep 1 (⟨0, 1, 0, 0, 0⟩ : PoolState) ⟨0, 2, 0, 0, 0⟩ := by
    have := @PoolStep.attachNew 1 ⟨0, 1, 0, 0, 0⟩ rfl (by norm_num)
    simpa using this
  have h3 : PoolStep 1 (⟨0, 2, 0, 0, 0⟩ : PoolState) ⟨1, 1, 0, 1, 0⟩ := by
    have := @PoolStep.connectOk 1 ⟨0, 2, 0, 0, 0⟩ (by norm_num)
    simpa using this
  have h4 : PoolStep 1 (⟨1, 1, 0, 1, 0⟩ : PoolState) ⟨2, 0, 0, 2, 0⟩ := by
    have := @PoolStep.connectOk 1 ⟨1, 1, 0, 1, 0⟩ (by norm_num)
    simpa using this
  exact Relation.ReflTransGen.trans
    (Relation.ReflTransGen.trans
      (Relation.ReflTransGen.single h1) (Relation.ReflTransGen.single h2))
    (Relation.ReflTransGen.trans
      (Relation.ReflTransGen.single h3) (Relation.ReflTransGen.single h4))

/-- Claim C5 (amended): when initiations are serialized (a step may only
start an initiation while none is in flight), every reachable pool state
satisfies `conn_counts + inflight ≤ max_server_conn`, hence
`conn_counts ≤ max_server_conn`; and in the unrestricted system any step
that starts an initiation does so only with the (post-step) count below
`max_server_conn` — the count is simply stale when initiations overlap. -/
theorem c5_serial_bound (maxConn : Int) (hmax : 1 ≤ maxConn) :
    (∀ s : PoolState, SerialReach maxConn s →
       s.counts + (s.inflight : Int) ≤ maxConn ∧ s.counts ≤ maxConn) ∧
    (∀ s t : PoolState, PoolStep maxConn s t → s.inflight < t.inflight →
       t.counts < maxConn) := by
  constructor
  · intro s hs
    have key : s.counts + (s.inflight : Int) ≤ maxConn := by
      induction hs with
      | refl => simp [poolInit]; omega
      | tail hab hbc ih =>
        obtain ⟨hstep, hserial⟩ := hbc
        cases hstep with
        | attachIdle h =>
          dsimp only at ih hserial ⊢
          omega
        | attachNew h h2 =>
          have h0 := hserial (by dsimp only; omega)
          dsimp only at ih ⊢
          omega
        | attachQueue h h2 =>
          dsimp only at ih ⊢
          omega
        | connectOk h =>
          dsimp only at ih ⊢
          omega
        | connectFail h =>
          dsimp only at ih ⊢
          omega
        | releaseIdle h h2 =>
          dsimp only at ih ⊢
          omega
        | releaseWaiter h h2 =>
          dsimp only at ih ⊢
          omega
        | deadConn h =>
          dsimp only at ih ⊢
          omega
        | deadConnRequeue h h2 h3 =>
          have h0 := hserial (by dsimp only; omega)
          dsimp only at ih ⊢
          omega
    have hnn : (0 : Int) ≤ (s.inflight : Int) := Int.natCast_nonneg _
    exact ⟨key, by omega⟩
  · intro s t hstep hlt
    cases hstep <;> dsimp only at hlt ⊢ <;> omega

/-- Witness for `c5_serial_bound` at the empty pool with cap 1. -/
theorem c5_witness :
    poolInit.counts + (poolInit.inflight : Int) ≤ 1 ∧ poolInit.counts ≤ 1 :=
  (c5_serial_bound 1 (by norm_num)).1 poolInit Relation.ReflTransGen.refl

/-- Helper: `_split_headers` on input beginning with CRLF CRLF finds the
boundary immediately: an empty header block and the bytes after the
blank line as remainder. -/
theorem splitHeaders_crlfcrlf (rest : Bytes) :
    splitHeaders (B "\r\n\r\n" ++ rest) = (some [], rest) := by
  have hB : B "\r\n\r\n" = [13, 10, 13, 10] := by decide
  rw [hB]
  show splitHeadersLoop (13 :: 10 :: 13 :: 10 :: rest)
      ((13 :: 10 :: 13 :: 10 :: rest).length + 2) 0 = (some [], rest)
  have hlen : (13 :: 10 :: 13 :: 10 :: rest).length + 2 = (rest.length + 5) + 1 := by
    simp
  rw [hlen]
  have hc2 : 2 < (13 :: 10 :: 13 :: 10 :: rest).length := by simp
  have hc3 : 3 < (13 :: 10 :: 13 :: 10 :: rest).length := by simp
  simp [splitHeadersLoop, findByteFrom, hc2, hc3]

/-- Claim C10: a complete header block consisting only of blank lines is
consumed silently.  `_parse_headers` on such a block returns `True`
having emitted no event (no `input_start`, no error) and changed nothing
but the `input_header_length` bookkeeping — in particular the input state
is still WAITING; and `handle_input` in WAITING state on a bare
CRLF CRLF followed by any remainder behaves exactly like `handle_input`
on the remainder alone (one unit of re-entry fuel consumed,
`input_header_length` reset by the empty block). -/
theorem c10_blank_headers {α : Type} (hk : Hooks α) (m : Machine α) (block : Bytes)
    (fuel : Nat) (rest : Bytes)
    (hblank : ∀ l ∈ pySplitlines block, pyStrip l = [])
    (hst : m.inputState = States.WAITING) (hbuf : m.inputBuffer = []) :
    parseHeaders hk m block = (true, { m with inputHeaderLength := block.length }, []) ∧
    handleInput hk (fuel + 1) m (B "\r\n\r\n" ++ rest)
      = handleInput hk fuel { m with inputHeaderLength := 0 } rest := by
  have hdrop := dropBlankTop_eq_none _ hblank
  constructor
  · simp [parseHeaders, hdrop]
  · obtain ⟨sub, careful, ds, ihl, itl, ib, ist, idl, bl⟩ := m
    simp only at hst hbuf
    subst hst
    subst hbuf
    conv_lhs => rw [handleInput.eq_def]
    simp [splitHeaders_crlfcrlf, parseHeaders, pySplitlines, pySplitlinesFuel,
      dropBlankTop]

/-- Witness for `c10_blank_headers`: the blank block `b"\r\n"` and the
remainder `b"x"` on a fresh WAITING test machine. -/
theorem c10_witness :
    parseHeaders testHooks (testMachine States.WAITING none 0) (B "\r\n")
      = (true,
         { testMachine States.WAITING none 0 with
             inputHeaderLength := (B "\r\n").length }, []) ∧
    handleInput testHooks 4 (testMachine States.WAITING none 0) (B "\r\n\r\n" ++ B "x")
      = handleInput testHooks 3
          { testMachine States.WAITING none 0 with inputHeaderLength := 0 } (B "x") :=
  c10_blank_headers testHooks (testMachine States.WAITING none 0) (B "\r\n") 3 (B "x")
    (by decide) rfl rfl

set_option maxRecDepth 40000 in
/-- Claim C6 (counterexample): parse-then-emit does not reproduce a
message byte-for-byte even without any folding.  `output_start` writes
`b"%s: %s" % (k.strip(), v)` while `_parse_fields` keeps the raw bytes
after the colon as the value, so `b"Foo: bar"` (value `b" bar"`) is
re-emitted as `b"Foo:  bar"` — a second space appears after the colon. -/
theorem c6_counterexample :
    roundTrip (B "HTTP/1.1 200 OK\r\nFoo: bar\r\n\r\n")
      = some (B "HTTP/1.1 200 OK\r\nFoo:  bar\r\n\r\n") ∧
    roundTrip (B "HTTP/1.1 200 OK\r\nFoo: bar\r\n\r\n")
      ≠ some (B "HTTP/1.1 200 OK\r\nFoo: bar\r\n\r\n") := by
  refine ⟨by decide, by decide⟩

/-- Helper for C6: the `content-length` arm of `_parse_fields` on a value
that parses to the non-negative integer `v`, when the accumulated
`content_length` is either unset or already `v`: no event, no abort, and
the accumulator ends up `some v` (first occurrence assigns it, an
identical duplicate is skipped by the duplicate check). -/
theorem parseFieldsCL_consistent {α : Type} (hk : Hooks α) (careful : Bool)
    (fs : FieldState α) (fval : Bytes) (v : Int)
    (hv : pyInt? 10 fval = some v) (h0 : 0 ≤ v)
    (hinv : fs.cl = none ∨ fs.cl = some v) :
    parseFieldsCL hk careful fs fval = ({ fs with cl := some v }, false) := by
  rcases hinv with h | h
  · simp [parseFieldsCL, h, hv, h0]
  · cases fs with
    | mk sub ist evs hdrs conn transfer cl =>
      simp only at h
      subst h
      simp [parseFieldsCL, hv]

/-- Helper for C6: `_parse_fields` on a plain header line (colon present,
no leading SP/HT, no whitespace around the name; if the name is
Content-Length, the value parses to the non-negative integer `v`)
appends exactly its colon split — no event, no abort — touching at most
the connection/transfer-code accumulators and the `content_length`
accumulator, which stays in {unset, `v`}. -/
theorem parseFieldsLine_wf {α : Type} (hk : Hooks α) (careful : Bool) (fs : FieldState α)
    (l : Bytes) (v : Int) (hwf : wfHeaderLine l)
    (hclv : pyLower (pyStrip (colonPair l).1) = B "content-length" →
      pyInt? 10 (pyStrip (colonPair l).2) = some v ∧ 0 ≤ v)
    (hinv : fs.cl = none ∨ fs.cl = some v) :
    ∃ conn transfer cl, (parseFieldsLine hk careful true fs l
      = ({ fs with hdrs := fs.hdrs ++ [colonPair l], conn := conn, transfer := transfer,
                   cl := cl }, false))
      ∧ (cl = none ∨ cl = some v) := by
  obtain ⟨hsome, h32, h9, hblankname, hstripname⟩ := hwf
  obtain ⟨⟨fn, fv⟩, hsplit⟩ := Option.isSome_iff_exists.mp hsome
  have hcp : colonPair l = (fn, fv) := by simp [colonPair, hsplit]
  rw [hcp] at hblankname hclv ⊢
  simp only at hblankname hclv
  have hne : B "transfer-encoding" ≠ B "connection" := by decide
  by_cases hconn : pyLower (pyStrip fn) = B "connection"
  · refine ⟨fs.conn ++ (splitAllByte 44 (pyStrip fv)).map (fun v => pyLower (pyStrip v)),
      fs.transfer, fs.cl, ?_, hinv⟩
    simp [parseFieldsLine, h32, h9, hsplit, hblankname, parseFieldsGather, hconn]
  · by_cases hte : pyLower (pyStrip fn) = B "transfer-encoding"
    · refine ⟨fs.conn,
        fs.transfer ++ (splitAllByte 44 (pyStrip fv)).map (fun v => pyLower (pyStrip v)),
        fs.cl, ?_, hinv⟩
      simp [parseFieldsLine, h32, h9, hsplit, hblankname, parseFieldsGather, hconn, hte,
        hne]
    · by_cases hcl : pyLower (pyStrip fn) = B "content-length"
      · obtain ⟨hv, h0⟩ := hclv hcl
        refine ⟨fs.conn, fs.transfer, some v, ?_, Or.inr rfl⟩
        have hne2 : B "content-length" ≠ B "connection" := by decide
        have hne3 : B "content-length" ≠ B "transfer-encoding" := by decide
        have hCL := parseFieldsCL_consistent hk careful
            { fs with hdrs := fs.hdrs ++ [(fn, fv)] } (pyStrip fv) v hv h0
            (by simpa using hinv)
        simp [parseFieldsLine, h32, h9, hsplit, hblankname, parseFieldsGather, hconn,
          hte, hcl, hne2, hne3, hCL]
      · refine ⟨fs.conn, fs.transfer, fs.cl, ?_, hinv⟩
        simp [parseFieldsLine, h32, h9, hsplit, hblankname, parseFieldsGather, hconn,
          hte, hcl]

/-- Helper for C6: the `_parse_fields` loop over plain header lines (all
Content-Length values, if any, parsing to the same non-negative `v`)
collects exactly the colon splits, in order, with no events and no
abort; the `content_length` accumulator stays in {unset, `v`}. -/
theorem parseFieldsGo_wf {α : Type} (hk : Hooks α) (careful : Bool) (lines : List Bytes)
    (v : Int)
    (hwf : ∀ l ∈ lines, wfHeaderLine l ∧
      (pyLower (pyStrip (colonPair l).1) = B "content-length" →
        pyInt? 10 (pyStrip (colonPair l).2) = some v ∧ 0 ≤ v)) :
    ∀ fs : FieldState α, (fs.cl = none ∨ fs.cl = some v) →
      ∃ conn transfer cl, (parseFieldsGo hk careful true fs lines
        = ({ fs with hdrs := fs.hdrs ++ lines.map colonPair,
                     conn := conn, transfer := transfer, cl := cl }, false))
        ∧ (cl = none ∨ cl = some v) := by
  induction lines with
  | nil =>
    intro fs hinv
    exact ⟨fs.conn, fs.transfer, fs.cl, by simp [parseFieldsGo], hinv⟩
  | cons l ls ih =>
    intro fs hinv
    obtain ⟨hwl, hclv⟩ := hwf l (by simp)
    obtain ⟨c1, t1, cl1, hline, hinv1⟩ := parseFieldsLine_wf hk careful fs l v hwl hclv hinv
    obtain ⟨c2, t2, cl2, hrest, hinv2⟩ := ih (fun x hx => hwf x (by simp [hx]))
        ({ fs with hdrs := fs.hdrs ++ [colonPair l], conn := c1, transfer := t1,
                   cl := cl1 })
        (by simpa using hinv1)
    refine ⟨c2, t2, cl2, ?_, hinv2⟩
    simp [parseFieldsGo, hline, hrest]

/-- Claim C6 (amended): for messages whose header lines are plain
(colon present, no folding, no whitespace around the name, and every
Content-Length value — if any — parsing to one common non-negative
integer `v`, as in any valid HTTP/1.1 message; `v` is arbitrary when no
Content-Length line occurs), parse-then-emit reproduces the message
modulo exactly one difference: each header line `name:value-bytes` is
re-emitted as `name.strip() ++ b": " ++ value-bytes` — `output_start`
inserts a single SP after the colon (`canonicalMsg`); the start line,
header order, names and post-colon value bytes are preserved, and
`_parse_fields` neither emits an event nor aborts. -/
theorem c6_roundtrip_amended {α : Type} (hk : Hooks α) (careful : Bool) (a : α)
    (st : States) (top : Bytes) (lines : List Bytes) (v : Int)
    (hwf : ∀ l ∈ lines, wfHeaderLine l ∧
      (pyLower (pyStrip (colonPair l).1) = B "content-length" →
        pyInt? 10 (pyStrip (colonPair l).2) = some v ∧ 0 ≤ v)) :
    (∃ conn transfer cl, parseFields hk careful true a st lines
        = (a, st, [], some (lines.map colonPair, conn, transfer, cl))) ∧
    outputStart top (lines.map colonPair) = canonicalMsg top lines := by
  constructor
  · obtain ⟨c, t, cl, hgo, _⟩ :=
      parseFieldsGo_wf hk careful lines v hwf ⟨a, st, [], [], [], [], none⟩ (Or.inl rfl)
    exact ⟨c, t, cl, by simp [parseFields, hgo]⟩
  · simp only [outputStart, canonicalMsg, List.map_map]
    rfl

/-- Witness for `c6_roundtrip_amended` on the header lines
`b"Content-Length: 5"` and `b"Foo: bar"` (common value `v = 5`). -/
theorem c6_witness :
    (∃ conn transfer cl,
       parseFields testHooks true true () States.WAITING
           [B "Content-Length: 5", B "Foo: bar"]
         = ((), States.WAITING, [],
            some ([B "Content-Length: 5", B "Foo: bar"].map colonPair,
                  conn, transfer, cl))) ∧
    outputStart (B "HTTP/1.1 200 OK")
        ([B "Content-Length: 5", B "Foo: bar"].map colonPair)
      = canonicalMsg (B "HTTP/1.1 200 OK") [B "Content-Length: 5", B "Foo: bar"] :=
  c6_roundtrip_amended testHooks true () States.WAITING (B "HTTP/1.1 200 OK")
    [B "Content-Length: 5", B "Foo: bar"] 5 (by decide)

/-- Helper: `schemeDefaultPort` succeeds only for `http` (80) and
`https` (443). -/
theorem schemeDefaultPort_ok (s : String) (d : Nat)
    (h : schemeDefaultPort s = Except.ok d) :
    (s = "http" ∧ d = 80) ∨ (s = "https" ∧ d = 443) := by
  by_cases h1 : s = "http"
  · simp [schemeDefaultPort, h1] at h
    exact Or.inl ⟨h1, h.symm⟩
  · by_cases h2 : s = "https"
    · simp [schemeDefaultPort, h1, h2] at h
      exact Or.inr ⟨h2, h.symm⟩
    · simp [schemeDefaultPort, h1, h2] at h

/-- Helper: a port `resolvePort` accepts is the scheme default or lies
in `[1, 65535]`. -/
theorem resolvePort_ok (d p : Nat) (pb : Option Bytes)
    (h : resolvePort d pb = Except.ok p) :
    p = d ∨ (1 ≤ p ∧ p ≤ 65535) := by
  cases pb with
  | none =>
    simp [resolvePort] at h
    exact Or.inl h.symm
  | some b =>
    by_cases hb : b = []
    · simp [resolvePort, hb] at h
      exact Or.inl h.symm
    · cases hq : pyInt? 10 b with
      | none => simp [resolvePort, hb, hq] at h
      | some q =>
        by_cases hr : 1 ≤ q ∧ q ≤ 65535
        · simp [resolvePort, hb, hq, hr] at h
          right
          omega
        · simp [resolvePort, hb, hq, hr] at h

/-- Helper: the request target built from a non-empty path is
non-empty. -/
theorem urlunsplit_ne_nil (path query : Bytes) (h : path ≠ []) :
    urlunsplitPathQuery path query ≠ [] := by
  unfold urlunsplitPathQuery
  split_ifs <;> simp_all

/-- Helper: whenever `parse_uri` succeeds, the scheme is `http` or
`https`, the port lies in `[1, 65535]` and the request target is
non-empty (an empty path has been replaced by `/`). -/
theorem c7_main :
    ∀ (u : Bytes) (s : String) (hn : Bytes) (p : Nat) (a t : Bytes),
      parse_uri u = Except.ok (s, hn, p, a, t) →
      (s = "http" ∨ s = "https") ∧ 1 ≤ p ∧ p ≤ 65535 ∧ t ≠ [] := by
  intro u s hn p a t hok
  unfold parse_uri at hok
  cases h1 : urlsplitBytes u with
  | error e => rw [h1] at hok; exact absurd hok (by simp)
  | ok quint =>
    obtain ⟨schemeb, authority0, path0, query, frag⟩ := quint
    rw [h1] at hok
    dsimp only at hok
    cases h2 : schemeDefaultPort (asciiStr (pyLower schemeb)) with
    | error e => rw [h2] at hok; exact absurd hok (by simp)
    | ok defaultPort =>
      rw [h2] at hok
      dsimp only at hok
      cases h3 : parseAuthority (stripUserinfo authority0) with
      | error e => rw [h3] at hok; exact absurd hok (by simp)
      | ok triple =>
        obtain ⟨hostb, portb, ipv6⟩ := triple
        rw [h3] at hok
        dsimp only at hok
        cases h4 : resolvePort defaultPort portb with
        | error e => rw [h4] at hok; exact absurd hok (by simp)
        | ok port =>
          rw [h4] at hok
          dsimp only at hok
          cases h5 : hostChecks ipv6 hostb with
          | error e => rw [h5] at hok; exact absurd hok (by simp)
          | ok u2 =>
            rw [h5] at hok
            dsimp only at hok
            by_cases h6 : 255 < hostb.length
            · rw [if_pos h6] at hok
              exact absurd hok (by simp)
            · rw [if_neg h6] at hok
              simp only [Except.ok.injEq, Prod.mk.injEq] at hok
              obtain ⟨hs, hhn, hp, ha, ht⟩ := hok
              have hd := schemeDefaultPort_ok _ _ h2
              have hpb := resolvePort_ok _ _ _ h4
              refine ⟨?_, ?_, ?_, ?_⟩
              · rcases hd with ⟨hx, _⟩ | ⟨hx, _⟩
                · exact Or.inl (hs ▸ hx)
                · exact Or.inr (hs ▸ hx)
              · rcases hd with ⟨_, h80⟩ | ⟨_, h43⟩ <;> omega
              · rcases hd with ⟨_, h80⟩ | ⟨_, h43⟩ <;> omega
              · rw [← ht]
                by_cases hpath : path0 = []
                · rw [hpath, if_pos rfl]
                  exact urlunsplit_ne_nil _ _ (by simp)
                · rw [if_neg hpath]
                  exact urlunsplit_ne_nil _ _ hpath

set_option maxRecDepth 40000 in
/-- Claim C7: `parse_uri` accepts only the schemes `http` and `https`
(case-insensitively: the scheme is lower-cased twice on the way in),
defaults the port to 80/443 when none is present, requires an explicit
port to be an integer in `[1, 65535]`, replaces an empty path by `/`,
and answers every violation — scheme, port, hostname
character/label/length rules — with a `UrlError` (an `Except.error` in
this model): whenever it returns at all, the scheme, port and target
obey the rules, and concrete violations of each rule are rejected. -/
theorem c7_parse_uri :
    (∀ (u : Bytes) (s : String) (hn : Bytes) (p : Nat) (a t : Bytes),
       parse_uri u = Except.ok (s, hn, p, a, t) →
       (s = "http" ∨ s = "https") ∧ 1 ≤ p ∧ p ≤ 65535 ∧ t ≠ []) ∧
    parse_uri (B "HTTP://Example.com")
      = Except.ok ("http", B "Example.com", 80, B "Example.com", B "/") ∧
    parse_uri (B "https://a")
      = Except.ok ("https", B "a", 443, B "a", B "/") ∧
    parse_uri (B "http://a:8080/x?y=1")
      = Except.ok ("http", B "a", 8080, B "a:8080", B "/x?y=1") ∧
    uriOk (B "ftp://a/") = false ∧
    uriOk (B "http://a:0/") = false ∧
    uriOk (B "http://a:70000/") = false ∧
    uriOk (B "http://a:bad/") = false ∧
    uriOk (B "http://a_b/") = false ∧
    uriOk (B "http://a..b/") = false := by
  refine ⟨c7_main, by rfl, by rfl, by rfl, by rfl, by rfl, by rfl, by rfl, by rfl, by rfl⟩

/-- Witness for `c7_parse_uri` at `http://a`. -/
theorem c7_witness :
    ("http" = "http" ∨ "http" = "https") ∧ 1 ≤ 80 ∧ 80 ≤ 65535 ∧ B "/" ≠ [] :=
  c7_parse_uri.1 (B "http://a") "http" (B "a") 80 (B "a") (B "/") (by rfl)
